import Mathlib

/-!
Shallow embedding of the RAG ingestion/retrieval core of this repository.

Source files embedded here:
- server/src/index.ts: cosineSimilarity, chunkText, the POST /api/chat handler.
- server/src/chatService.ts: RAG_CONFIG, validateChatRequest, processRAGQuery,
  formatChatResponse.
- uploadService (src/unnamed/part_001): UPLOAD_CONFIG, validateUploadRequest,
  createDocumentChunks, batchArray, generateEmbeddings with its runBatches
  concurrency pool.

Modelling conventions:
- JS strings are modelled as List Char (a JS string is a sequence of code
  units; none of the embedded functions are sensitive to the UTF-16 encoding
  for the inputs considered).
- JS numbers holding similarity scores and vector entries are modelled as
  rationals (every finite IEEE double is a rational; the properties at stake
  here, such as comparisons against the 0.7 threshold and the NaN dichotomy,
  do not depend on rounding).  The non-finite results of JS arithmetic
  (NaN and infinities) are modelled by Option, with none standing for a
  non-finite value.
- Asynchronous code is modelled by explicit state passing: the runBatches
  promise pool becomes a step-by-step simulation parameterised by a schedule
  describing which in-flight batches resolve during each await point.
- Fallible code returns Except; a JS catch-all corresponds to a match on the
  Except value.
- Loops whose JS form is a for/while are written with an explicit fuel
  argument so that every definition reduces inside the kernel; in each case
  the fuel given at the call site is an upper bound on the number of
  iterations the JS loop performs, so the embedding computes the same result.
-/

/-! ### Configuration constants (UPLOAD_CONFIG in uploadService, RAG_CONFIG in chatService.ts) -/

def MAX_EMBEDDING_CHARS : Nat := 512

def CHUNK_SIZE : Nat := 1500

def CHUNK_OVERLAP : Nat := 200

def OPENAI_BATCH_SIZE : Nat := 16

def OLLAMA_BATCH_SIZE : Nat := 4

def CONCURRENCY_LIMIT : Nat := 3

def SIMILARITY_THRESHOLD : ℚ := 7/10

def DEFAULT_MAX_CHUNKS : Nat := 5

def FALLBACK_CHUNKS : Nat := 3

/-! ### cosineSimilarity (index.ts lines 79-87)

The JS function loops i over a.length accumulating dot += a[i]*b[i],
normA += a[i]*a[i], normB += b[i]*b[i] and returns
dot / (Math.sqrt(normA) * Math.sqrt(normB)).  There is no zero-norm guard.
If b is shorter than a, b[i] is undefined and every accumulator becomes NaN.
If either norm is 0 then (over exact arithmetic) every entry read from that
vector is 0, hence dot = 0 and the result is 0/0 = NaN.  Otherwise the
result is the finite real dot / (sqrt(normA) * sqrt(normB)).  none models a
non-finite (NaN) result. -/

noncomputable def cosineSimilarity (a b : List ℚ) : Option ℝ :=
  if a.length ≤ b.length then
    let dot : ℚ := (List.zipWith (· * ·) a (b.take a.length)).sum
    let normA : ℚ := (a.map fun x => x * x).sum
    let normB : ℚ := ((b.take a.length).map fun x => x * x).sum
    if normA = 0 ∨ normB = 0 then none
    else some ((dot : ℝ) / (Real.sqrt (normA : ℝ) * Real.sqrt (normB : ℝ)))
  else none

/-! ### Retriever data model (chatService.ts) -/

/-- A stored chunk as returned by documentDb.getAllChunks(). -/
structure RAGChunk where
  chunk_index : Nat
  chunk_text : List Char
  document_id : Nat
  embedding : List ℚ
deriving DecidableEq

/-- The spread { ...chunk, similarity } built inside processRAGQuery. -/
structure ScoredChunk where
  chunk : RAGChunk
  similarity : ℚ
deriving DecidableEq

/-- The descending-by-similarity comparison used by the JS comparator
(a, b) => b.similarity - a.similarity. -/
def simDescRel (a b : ScoredChunk) : Prop := b.similarity ≤ a.similarity

instance : DecidableRel simDescRel := fun a b =>
  inferInstanceAs (Decidable (b.similarity ≤ a.similarity))

instance : IsTotal ScoredChunk simDescRel :=
  ⟨fun a b => (le_total b.similarity a.similarity).symm.symm⟩

instance : IsTrans ScoredChunk simDescRel :=
  ⟨fun _ _ _ hab hbc => le_trans hbc hab⟩

/-- Array.prototype.sort with the comparator
(a, b) => b.similarity - a.similarity: a stable sort, descending by
similarity (insertion sort is stable and kernel-computable). -/
def sortBySimilarityDesc (l : List ScoredChunk) : List ScoredChunk :=
  List.insertionSort simDescRel l

/-- processRAGQuery (chatService.ts lines 74-116).  The two awaited or
throwing dependencies, getOllamaEmbedding(message) and
documentDb.getAllChunks(), are passed as Except values; the surrounding
try/catch returns [] whenever either of them fails.  cosineSimilarity is a
function parameter exactly as in the source. -/
def processRAGQuery (embRes : Except String (List ℚ))
    (chunksRes : Except String (List RAGChunk)) (maxChunks : Nat)
    (cos : List ℚ → List ℚ → ℚ) : List ScoredChunk :=
  match embRes, chunksRes with
  | .ok queryEmbedding, .ok allChunks =>
    let scoredChunks := allChunks.map fun c =>
      ⟨c, cos queryEmbedding c.embedding⟩
    let filteredChunks := scoredChunks.filter fun c =>
      SIMILARITY_THRESHOLD ≤ c.similarity
    if filteredChunks.isEmpty then
      (sortBySimilarityDesc scoredChunks).take FALLBACK_CHUNKS
    else
      (sortBySimilarityDesc filteredChunks).take maxChunks
  | _, _ => []

/-! ### Chat request validation and the /api/chat handler
(chatService.ts lines 52-71 and 193-210, index.ts lines 188-220) -/

/-- The JSON body of POST /api/chat; absent fields are none.  The message
field models both an absent message and a provided string (a non-string
message behaves like an absent one: both fail the same check). -/
structure ChatBody where
  message : Option String
  history : Option (List (String × String))
  model : Option String
  modelName : Option String
  useRag : Option Bool
  maxChunks : Option Nat

structure ChatRequest where
  message : String
  history : List (String × String)
  model : String
  modelName : Option String
  useRag : Bool
  maxChunks : Nat

/-- validateChatRequest (chatService.ts lines 52-71).  Defaults are applied
by destructuring before the checks; the falsiness test !message rejects both
a missing message and the empty string; the model check is skipped when
model is the (falsy) empty string. -/
def validateChatRequest (b : ChatBody) : Except String ChatRequest :=
  let model := b.model.getD "openai"
  if b.message = none ∨ b.message = some "" then
    .error "Message is required and must be a string"
  else if model ≠ "" ∧ model ∉ ["openrouter", "openai", "ollama"] then
    .error "Invalid model specified"
  else
    .ok { message := b.message.getD "", history := b.history.getD [],
          model := model, modelName := b.modelName,
          useRag := b.useRag.getD false,
          maxChunks := b.maxChunks.getD DEFAULT_MAX_CHUNKS }

/-- The RAG gate of the /api/chat handler (index.ts line 195):
chatRequest.useRag && (model === "gemini" || model === "deepseek" ||
model === "local"). -/
def chatUsesRAG (req : ChatRequest) : Bool :=
  req.useRag &&
    (req.model == "gemini" || req.model == "deepseek" || req.model == "local")

/-- The ragChunks value computed by the handler (index.ts lines 194-203):
processRAGQuery runs only when the gate is true; retrieve abstracts the
call processRAGQuery(message, maxChunks, ...). -/
def chatHandlerRagChunks (req : ChatRequest)
    (retrieve : String → Nat → List ScoredChunk) : List ScoredChunk :=
  if chatUsesRAG req then retrieve req.message req.maxChunks else []

/-- One element of the retrievedChunks array of a chat response. -/
structure RetrievedChunkOut where
  documentId : Nat
  chunkIndex : Nat
  text : List Char
  similarity : ℚ
deriving DecidableEq

structure ChatResponse where
  response : String
  retrievedChunks : Option (List RetrievedChunkOut)
deriving DecidableEq

/-- formatChatResponse (chatService.ts lines 193-210): retrievedChunks is
included only when useRag is set and ragChunks is non-empty. -/
def formatChatResponse (response : String) (ragChunks : List ScoredChunk)
    (useRag : Bool) : ChatResponse :=
  { response := response,
    retrievedChunks :=
      if useRag && !ragChunks.isEmpty then
        some (ragChunks.map fun c =>
          ⟨c.chunk.document_id, c.chunk.chunk_index, c.chunk.chunk_text,
           c.similarity⟩)
      else none }

/-! ### Upload request validation (uploadService lines 65-76) -/

/-- The parts of the multipart upload request that validateUploadRequest
reads: req.file (none when no file was uploaded; some carries the stored
filename) and req.body.embeddingProvider. -/
structure UploadBody where
  file : Option String
  embeddingProvider : Option String

inductive Provider
  | openai
  | ollama
deriving DecidableEq

/-- validateUploadRequest (uploadService lines 65-76): throws only for a
missing file; the provider is computed as
req.body.embeddingProvider === "ollama" ? "ollama" : "openai", so any
other value, supported or not, silently becomes openai. -/
def validateUploadRequest (req : UploadBody) :
    Except String (String × Provider) :=
  match req.file with
  | none => .error "No file uploaded"
  | some f =>
    .ok (f, if req.embeddingProvider = some "ollama" then .ollama else .openai)

/-! ### Page-based document chunker (uploadService lines 123-139) -/

/-- One element of the allChunks array built by createDocumentChunks. -/
structure DocumentChunk where
  chunk_index : Nat
  chunk_text : List Char
deriving DecidableEq

/-- JS String.prototype.trim restricted to emptiness checks: drop whitespace
from both ends. -/
def jsTrim (l : List Char) : List Char :=
  ((l.dropWhile Char.isWhitespace).reverse.dropWhile Char.isWhitespace).reverse

/-- The inner loop of createDocumentChunks for one page:
for (let i = 0; i < pageText.length; i += CHUNK_SIZE - CHUNK_OVERLAP)
push { chunk_index: allChunks.length, chunk_text: pageText.slice(i, i+1500) }
whenever the slice is non-empty after trimming.  The fuel argument gives the
recursion a structural measure; the step is 1300 ≥ 1, so page.length + 1
units of fuel always outlast the JS loop. -/
def chunkPageLoop (page : List Char) : Nat → Nat → List DocumentChunk →
    List DocumentChunk
  | 0, _, acc => acc
  | fuel + 1, i, acc =>
    if i < page.length then
      let ct := (page.drop i).take CHUNK_SIZE
      let acc' := if jsTrim ct = [] then acc
                  else acc ++ [⟨acc.length, ct⟩]
      chunkPageLoop page fuel (i + (CHUNK_SIZE - CHUNK_OVERLAP)) acc'
    else acc

/-- createDocumentChunks (uploadService lines 123-139): iterate the page
loop over all pages, accumulating into the one global allChunks array. -/
def createDocumentChunks (pages : List (List Char)) : List DocumentChunk :=
  pages.foldl (fun acc p => chunkPageLoop p (p.length + 1) 0 acc) []

/-! ### Boundary-seeking chunker chunkText (index.ts lines 89-102)

Only the cursor dynamics of the while loop matter for the termination
claim, so the loop body is embedded as a step function on the cursor i
(an integer: the JS code can drive it negative).  chunkSize is the default
1500, for which chunkSize * 1.5 = 2250. -/

/-- JS text.lastIndexOf("\n", pos): the greatest index j with j ≤ pos
(a negative pos behaves like 0) holding a newline, else -1. -/
def lastIndexOfNl (text : List Char) (pos : Int) : Int :=
  (List.range text.length).foldl
    (fun (best : Int) (j : Nat) =>
      if (j : Int) ≤ max pos 0 ∧ text.getD j ' ' = '\n' then (j : Int)
      else best)
    (-1)

/-- JS text.indexOf("\n", pos): the least index j with j ≥ pos (a negative
pos behaves like 0) holding a newline, else -1. -/
def indexOfNl (text : List Char) (pos : Int) : Int :=
  match (List.range text.length).find?
      (fun (j : Nat) => decide (max pos 0 ≤ (j : Int)) &&
        (text.getD j ' ' == '\n')) with
  | some j => (j : Int)
  | none => -1

/-- One iteration of the chunkText while loop, returning the next cursor:
end = i + 1500; nextBreak = lastIndexOf("\n", end);
if (nextBreak <= i) nextBreak = indexOf("\n", end);
if (nextBreak > i && nextBreak - i < 2250) end = nextBreak;
i = end - 200. -/
def chunkTextStep (text : List Char) (i : Int) : Int :=
  let e0 : Int := i + (CHUNK_SIZE : Int)
  let nb0 := lastIndexOfNl text e0
  let nb := if nb0 ≤ i then indexOfNl text e0 else nb0
  let e := if i < nb ∧ nb - i < 2250 then nb else e0
  e - 200

/-! ### Embedding generation (uploadService lines 142-228) -/

/-- batchArray (uploadService lines 142-148): slice arr into consecutive
batches of batchSize.  Structured with fuel = arr.length so it reduces in
the kernel; for batchSize ≥ 1 every JS iteration drops at least one element,
so the fuel never runs out.  (The JS loop diverges for batchSize = 0; both
call sites use 16 or 4.) -/
def batchArrayGo (batchSize : Nat) : Nat → List α → List (List α)
  | _, [] => []
  | 0, _ :: _ => []
  | fuel + 1, a :: as =>
    (a :: as).take batchSize :: batchArrayGo batchSize fuel ((a :: as).drop batchSize)

def batchArray (arr : List α) (batchSize : Nat) : List (List α) :=
  batchArrayGo batchSize arr.length arr

def batchSizeFor : Provider → Nat
  | .openai => OPENAI_BATCH_SIZE
  | .ollama => OLLAMA_BATCH_SIZE

/-- The entries one call of processBatch pushes onto results: each chunk of
the batch paired with the embedding of its text truncated to
MAX_EMBEDDING_CHARS (uploadService lines 167-191).  The provider call is
abstracted as the pure function embed. -/
def batchEntries (embed : List Char → List Int) (batch : List DocumentChunk) :
    List (DocumentChunk × List Int) :=
  batch.map fun c => (c, embed (c.chunk_text.take MAX_EMBEDDING_CHARS))

/-- The mutable state of runBatches (uploadService lines 163-224): idx is
the next batch to start; pool holds the batch ids whose promises are in the
pool array (started batches whose promises were shifted out may still be
running); completed lists batch ids in the order their processBatch calls
resolved; results is the shared results array, appended to by each
processBatch as it resolves; maxInFlight records the largest number of
simultaneously running processBatch calls seen so far. -/
structure SimState where
  idx : Nat
  pool : List Nat
  completed : List Nat
  results : List (DocumentChunk × List Int)
  maxInFlight : Nat
deriving DecidableEq

/-- The inner while of runBatches: start batches until the pool is full or
all batches have started.  Starting batch s.idx raises the number in flight
to s.idx + 1 - s.completed.length.  Fuel n (the total number of batches)
bounds the iterations, since each one increments idx and idx < n. -/
def fillPool (n limit : Nat) : Nat → SimState → SimState
  | 0, s => s
  | fuel + 1, s =>
    if s.pool.length < limit ∧ s.idx < n then
      fillPool n limit fuel
        { s with idx := s.idx + 1, pool := s.pool ++ [s.idx],
                 maxInFlight := max s.maxInFlight (s.idx + 1 - s.completed.length) }
    else s

/-- Resolve the batches listed in comps, in order, during one await point:
each must have been started (b < idx) and not already be resolved.  A
resolving processBatch appends its entries to results (uploadService lines
186-191). -/
def applyCompletions (batches : List (List DocumentChunk))
    (embed : List Char → List Int) :
    List Nat → SimState → Option SimState
  | [], s => some s
  | b :: rest, s =>
    if b < s.idx ∧ b ∉ s.completed then
      applyCompletions batches embed rest
        { s with completed := s.completed ++ [b],
                 results := s.results ++ batchEntries embed (batches.getD b []) }
    else none

/-- Promise.race(pool) has resolved: some promise in the pool array is
resolved (promises stay resolved, so a batch completed at an earlier await
keeps satisfying the race). -/
def raceResolved (s : SimState) : Bool :=
  s.pool.any fun b => s.completed.contains b

/-- Promise.all(pool) has resolved: every promise in the pool array is
resolved. -/
def allResolved (s : SimState) : Bool :=
  s.pool.all fun b => s.completed.contains b

/-- runBatches (uploadService lines 209-224) as a schedule-driven
simulation.  Each schedule entry gives the batches that resolve during one
await point, so the recursion is structural in the schedule.  While
idx < batches.length the loop fills the pool, awaits Promise.race(pool)
(none when the schedule cannot wake the race), then executes pool.shift(),
which removes the FIRST promise of the pool whether or not it is the one
that resolved.  After the loop, the final schedule entry feeds
await Promise.all(pool); the run is valid only if it resolves every promise
still in the pool array.  Batches shifted out of the pool while unresolved
are not awaited by anything. -/
def runBatchesSim (batches : List (List DocumentChunk))
    (embed : List Char → List Int) :
    List (List Nat) → SimState → Option SimState
  | [], _ => none
  | comps :: rest, s =>
    if s.idx < batches.length then
      match applyCompletions batches embed comps
          (fillPool batches.length CONCURRENCY_LIMIT batches.length s) with
      | none => none
      | some s2 =>
        if raceResolved s2 then
          runBatchesSim batches embed rest { s2 with pool := s2.pool.tail }
        else none
    else
      if rest = [] then
        match applyCompletions batches embed comps s with
        | none => none
        | some s2 => if allResolved s2 then some s2 else none
      else none

/-- generateEmbeddings (uploadService lines 151-228): batch the chunks by
the provider batch size and run the concurrency pool from the empty initial
state under the given completion schedule.  The returned state carries the
results array as it stands when runBatches resolves. -/
def generateEmbeddings (chunks : List DocumentChunk) (provider : Provider)
    (embed : List Char → List Int) (sched : List (List Nat)) :
    Option SimState :=
  runBatchesSim (batchArray chunks (batchSizeFor provider)) embed sched
    ⟨0, [], [], [], 0⟩

/-! ### Shared concrete inputs used by counterexamples and witnesses -/

/-- Five chunks with one-character texts; under the ollama batch size 4 they
form two batches, [c0..c3] and [c4]. -/
def chunks5 : List DocumentChunk := (List.range 5).map fun i => ⟨i, ['x']⟩

/-- Seventeen chunks; under the ollama batch size 4 they form five batches
of sizes 4, 4, 4, 4, 1. -/
def chunks17 : List DocumentChunk := (List.range 17).map fun i => ⟨i, ['t']⟩

/-- A concrete embedding provider for witnesses: the length of the text. -/
def embedLen : List Char → List Int := fun t => [(t.length : Int)]

/-- The final simulation state of generateEmbeddings on chunks5 under the
schedule where batch 1 resolves during the race and batch 0 only resolves
during the final Promise.all. -/
def simFinal5 : SimState :=
  ⟨2, [1], [1, 0],
   [(⟨4, ['x']⟩, [1]), (⟨0, ['x']⟩, [1]), (⟨1, ['x']⟩, [1]),
    (⟨2, ['x']⟩, [1]), (⟨3, ['x']⟩, [1])], 2⟩

/-- A single stored chunk whose similarity against the test query will be
1/2, below the 0.7 threshold. -/
def lowChunk : RAGChunk := ⟨0, ['t'], 1, [1]⟩

/-- Four low-scoring stored chunks. -/
def chunks4low : List RAGChunk := (List.range 4).map fun i => ⟨i, ['t'], 1, [1]⟩

/-- A stored chunk whose similarity against the test query will be 1, at or
above the threshold. -/
def highChunk : RAGChunk := ⟨0, ['h'], 2, [1]⟩

/-- The simulation invariant behind C1: started batches never exceed the
batch count, every completed batch id is in range, and the results array is
exactly the concatenation of the completed batches' entry lists in
completion order. -/
def SimInv (batches : List (List DocumentChunk))
    (embed : List Char → List Int) (s : SimState) : Prop :=
  s.idx ≤ batches.length ∧
  (∀ b ∈ s.completed, b < batches.length) ∧
  s.results = (s.completed.map fun b =>
    batchEntries embed (batches.getD b [])).flatten

/-! ### Theorems -/

/-- C3: the code has no zero-norm guard: on a zero-norm first vector the
denominator Math.sqrt(normA) * Math.sqrt(normB) is 0 and the dot product is
0, so cosineSimilarity returns NaN (modelled none), not 0 as the claim
states. -/
theorem cosineSimilarity_zero_norm_is_nan :
    cosineSimilarity [(0 : ℚ)] [(1 : ℚ)] = none ∧
    cosineSimilarity [(0 : ℚ)] [(1 : ℚ)] ≠ some 0 := by
  constructor <;> simp [cosineSimilarity]

/-- C8: the boundary-seeking chunker does not terminate on every input: on
the two-character text "a\n" the first iteration moves the cursor from 0 to
-199, and from -199 every subsequent iteration recomputes end as the newline
position 1 and leaves the cursor at -199, while the loop condition
i < text.length keeps holding, so the loop never exits. -/
theorem chunkText_cursor_stuck :
    chunkTextStep ['a', '\n'] 0 = -199 ∧
    chunkTextStep ['a', '\n'] (-199) = -199 ∧
    (-199 : Int) < ((['a', '\n'] : List Char).length : Int) := by
  refine ⟨by decide, by decide, by decide⟩

/-- C9 counterexample: an upload request carrying the unsupported provider
"gemini" does not fail validation: validateUploadRequest silently coerces it
to openai and returns successfully. -/
theorem validateUploadRequest_accepts_unsupported_provider :
    validateUploadRequest ⟨some "doc.pdf", some "gemini"⟩ =
      .ok ("doc.pdf", Provider.openai) ∧
    (some "gemini" : Option String) ≠ some "openai" ∧
    (some "gemini" : Option String) ≠ some "ollama" :=
  ⟨rfl, by decide, by decide⟩

/-- C9 amended: validation fails exactly when the file is missing; when a
file is present any embeddingProvider value other than "ollama", including
unsupported ones, is silently coerced to openai and the request is
accepted. -/
theorem validateUploadRequest_fails_only_on_missing_file :
    (∀ req : UploadBody,
      (∃ e, validateUploadRequest req = .error e) ↔ req.file = none) ∧
    ∀ (f : String) (p : Option String),
      validateUploadRequest ⟨some f, p⟩ =
        .ok (f, if p = some "ollama" then Provider.ollama else Provider.openai) := by
  constructor
  · intro req
    constructor
    · rintro ⟨e, he⟩
      cases hf : req.file with
      | none => rfl
      | some f => rw [validateUploadRequest, hf] at he; cases he
    · intro hf
      exact ⟨"No file uploaded", by rw [validateUploadRequest, hf]⟩
  · intro f p
    rfl

/-- C10: processRAGQuery returns the empty list whenever the query
embedding or the chunk loading fails: the catch-all around the body maps
every internal failure to []. -/
theorem processRAGQuery_swallows_failures
    (embRes : Except String (List ℚ)) (chunksRes : Except String (List RAGChunk))
    (k : Nat) (cos : List ℚ → List ℚ → ℚ)
    (h : (∃ e, embRes = .error e) ∨ (∃ e, chunksRes = .error e)) :
    processRAGQuery embRes chunksRes k cos = [] := by
  rcases h with ⟨e, rfl⟩ | ⟨e, rfl⟩
  · cases chunksRes <;> rfl
  · cases embRes <;> rfl

/-- C10 witness: a failed query embedding yields the empty chunk list. -/
theorem processRAGQuery_swallows_failures_witness :
    processRAGQuery (.error "network down") (.ok []) DEFAULT_MAX_CHUNKS
      (fun _ _ => 0) = [] :=
  processRAGQuery_swallows_failures _ _ _ _ (Or.inl ⟨"network down", rfl⟩)

/-- C5: the claim is refuted by the code: validateChatRequest only accepts
the models openrouter, openai and ollama (or a model field that is the
falsy empty string), while the RAG gate of the /api/chat handler only fires
for gemini, deepseek or local, so for every request that passes validation
the gate is false, processRAGQuery is never invoked, and the response never
carries retrievedChunks. -/
theorem chat_rag_never_invoked (b : ChatBody) (req : ChatRequest)
    (retrieve : String → Nat → List ScoredChunk) (resp : String)
    (h : validateChatRequest b = .ok req) :
    chatUsesRAG req = false ∧ chatHandlerRagChunks req retrieve = [] ∧
    (formatChatResponse resp (chatHandlerRagChunks req retrieve)
        req.useRag).retrievedChunks = none := by
  rw [validateChatRequest] at h
  split_ifs at h with h1 h2
  have hreq := (Except.ok.injEq _ _).mp h
  have hmodel : req.model = b.model.getD "openai" := by rw [← hreq]
  push_neg at h2
  have hgate : chatUsesRAG req = false := by
    rw [chatUsesRAG, hmodel]
    by_cases he : b.model.getD "openai" = ""
    · rw [he]; simp
    · have hmem := h2 he
      simp only [List.mem_cons, List.not_mem_nil, or_false] at hmem
      rcases hmem with h3 | h3 | h3 <;> rw [h3] <;> simp
  refine ⟨hgate, ?_, ?_⟩
  · rw [chatHandlerRagChunks, hgate]; rfl
  · rw [chatHandlerRagChunks, hgate]
    simp [formatChatResponse]

/-- C5 witness: a concrete valid request with model ollama and useRag true
goes through the handler without retrieval and without retrievedChunks. -/
theorem chat_rag_never_invoked_witness :
    chatUsesRAG ⟨"hi", [], "ollama", none, true, 5⟩ = false ∧
    chatHandlerRagChunks ⟨"hi", [], "ollama", none, true, 5⟩
      (fun _ _ => []) = [] ∧
    (formatChatResponse "ok"
        (chatHandlerRagChunks ⟨"hi", [], "ollama", none, true, 5⟩
          (fun _ _ => []))
        (ChatRequest.useRag ⟨"hi", [], "ollama", none, true, 5⟩)).retrievedChunks
      = none :=
  chat_rag_never_invoked
    ⟨some "hi", none, some "ollama", none, some true, none⟩
    ⟨"hi", [], "ollama", none, true, 5⟩ (fun _ _ => []) "ok" rfl

/-- Helper: a page of length at most CHUNK_SIZE - CHUNK_OVERLAP that is
non-empty after trimming contributes exactly one chunk, the whole page,
indexed by the current accumulator length. -/
theorem chunkPageLoop_short_page (p : List Char) (acc : List DocumentChunk)
    (hlen : p.length ≤ CHUNK_SIZE - CHUNK_OVERLAP) (htrim : jsTrim p ≠ []) :
    chunkPageLoop p (p.length + 1) 0 acc = acc ++ [⟨acc.length, p⟩] := by
  have hne : p ≠ [] := by
    intro hnil
    exact htrim (by rw [hnil]; rfl)
  have hpos : 0 < p.length := List.length_pos.mpr hne
  obtain ⟨m, hm⟩ := Nat.exists_eq_succ_of_ne_zero (Nat.pos_iff_ne_zero.mp hpos)
  have hct : List.take CHUNK_SIZE p = p :=
    List.take_of_length_le (le_trans hlen (by decide))
  have hstop : ¬ (0 + (CHUNK_SIZE - CHUNK_OVERLAP) < p.length) := by
    simp only [Nat.zero_add]
    exact not_lt_of_le hlen
  rw [chunkPageLoop]
  simp only [if_pos hpos, List.drop_zero, hct, if_neg htrim]
  rw [hm, chunkPageLoop, if_neg hstop]

/-- Helper: folding the page loop over pages all of which are short and
non-blank appends one chunk per page, indexed from the accumulator
length. -/
theorem createDocumentChunks_foldl (pages : List (List Char)) :
    ∀ acc : List DocumentChunk,
    (∀ p ∈ pages, p.length ≤ CHUNK_SIZE - CHUNK_OVERLAP ∧ jsTrim p ≠ []) →
    pages.foldl (fun acc p => chunkPageLoop p (p.length + 1) 0 acc) acc =
      acc ++ pages.mapIdx fun i p => ⟨acc.length + i, p⟩ := by
  induction pages with
  | nil => intro acc _; simp
  | cons p ps ih =>
    intro acc h
    have hp := h p (List.mem_cons_self p ps)
    rw [List.foldl_cons, chunkPageLoop_short_page p acc hp.1 hp.2]
    have hstep := ih
      (acc ++ [({ chunk_index := acc.length, chunk_text := p } : DocumentChunk)])
      (fun q hq => h q (List.mem_cons_of_mem p hq))
    rw [hstep, List.mapIdx_cons, List.append_assoc, List.singleton_append]
    simp only [List.length_append, List.length_singleton, Nat.add_zero,
      Nat.add_assoc, Nat.add_comm 1]

/-- C6 (amended): every page whose length is at most
CHUNK_SIZE - CHUNK_OVERLAP = 1300 characters and which is non-empty after
trimming yields exactly one chunk, the whole page; a document of N such
pages yields exactly N chunks with indices 0, ..., N-1, one per page in
page order.  (Pages of length 1301-1499 are shorter than CHUNK_SIZE but can
yield a second overlap-tail chunk, refuting the claim as stated.) -/
theorem createDocumentChunks_one_chunk_per_short_page
    (pages : List (List Char))
    (h : ∀ p ∈ pages, p.length ≤ CHUNK_SIZE - CHUNK_OVERLAP ∧ jsTrim p ≠ []) :
    createDocumentChunks pages = pages.mapIdx fun i p => ⟨i, p⟩ := by
  rw [createDocumentChunks, createDocumentChunks_foldl pages [] h]
  simp

/-- C6 witness: three one-character pages yield exactly three chunks with
indices 0, 1, 2, each containing the whole page. -/
theorem createDocumentChunks_one_chunk_per_short_page_witness :
    createDocumentChunks [['a'], ['b'], ['c']] =
      [⟨0, ['a']⟩, ⟨1, ['b']⟩, ⟨2, ['c']⟩] :=
  (createDocumentChunks_one_chunk_per_short_page [['a'], ['b'], ['c']]
    (by decide)).trans (by decide)

set_option maxRecDepth 100000 in
/-- C6 counterexample: a page of 1301 identical non-blank characters is
shorter than CHUNK_SIZE = 1500 and non-empty after trimming, yet the
page-based chunker emits two chunks for it (the second being the 1-character
overlap tail starting at offset 1300), refuting "exactly one chunk per page
shorter than chunkSize". -/
theorem createDocumentChunks_short_page_two_chunks :
    (createDocumentChunks [List.replicate 1301 'a']).length = 2 ∧
    (List.replicate 1301 'a').length < CHUNK_SIZE ∧
    jsTrim (List.replicate 1301 'a') ≠ [] := by
  refine ⟨by decide, by decide, by decide⟩

/-- Helper: the page loop preserves the invariant that the accumulated
chunk indices are exactly 0, ..., length-1 in order. -/
theorem chunkPageLoop_indices (p : List Char) :
    ∀ (fuel i : Nat) (acc : List DocumentChunk),
    acc.map DocumentChunk.chunk_index = List.range acc.length →
    (chunkPageLoop p fuel i acc).map DocumentChunk.chunk_index =
      List.range (chunkPageLoop p fuel i acc).length := by
  intro fuel
  induction fuel with
  | zero => intro i acc hacc; exact hacc
  | succ fuel ih =>
    intro i acc hacc
    rw [chunkPageLoop]
    by_cases hi : i < p.length
    · rw [if_pos hi]
      by_cases htr : jsTrim ((p.drop i).take CHUNK_SIZE) = []
      · simp only [if_pos htr]
        exact ih _ _ hacc
      · simp only [if_neg htr]
        refine ih _ _ ?_
        rw [List.map_append, hacc, List.length_append]
        simp [List.range_succ]
    · rw [if_neg hi]
      exact hacc

/-- C7: for every sequence of page texts the emitted chunks carry
chunk_index values forming the contiguous range 0, ..., N-1 in order, where
N is the number of emitted chunks: the index is allChunks.length at each
push, incrementing globally across pages and never resetting. -/
theorem createDocumentChunks_indices_contiguous (pages : List (List Char)) :
    (createDocumentChunks pages).map DocumentChunk.chunk_index =
      List.range (createDocumentChunks pages).length := by
  rw [createDocumentChunks]
  have main : ∀ (acc : List DocumentChunk),
      acc.map DocumentChunk.chunk_index = List.range acc.length →
      (pages.foldl (fun acc p => chunkPageLoop p (p.length + 1) 0 acc)
          acc).map DocumentChunk.chunk_index =
        List.range (pages.foldl (fun acc p => chunkPageLoop p (p.length + 1) 0 acc)
          acc).length := by
    induction pages with
    | nil => intro acc hacc; exact hacc
    | cons p ps ih =>
      intro acc hacc
      rw [List.foldl_cons]
      exact ih _ (chunkPageLoop_indices p _ _ _ hacc)
  exact main [] (by simp)

/-- Helper: one half is below the similarity threshold. -/
theorem half_lt_threshold : (1 : ℚ)/2 < SIMILARITY_THRESHOLD := by
  norm_num [SIMILARITY_THRESHOLD]

/-- Helper: one is at or above the similarity threshold. -/
theorem threshold_le_one : SIMILARITY_THRESHOLD ≤ (1 : ℚ) := by
  norm_num [SIMILARITY_THRESHOLD]

/-- C4 (amended): over a non-empty corpus in which every chunk scores below
the threshold, processRAGQuery takes the fallback path and returns the
first FALLBACK_CHUNKS = 3 entries of the similarity-descending sort of the
whole scored corpus, hence min(3, corpus size) results (exactly 3 only when
the corpus has at least 3 chunks), each scoring at least as high as every
chunk it leaves out; and whenever some chunk reaches the threshold every
returned chunk is at or above the threshold, so sub-threshold chunks are
returned only on the fallback path. -/
theorem processRAGQuery_fallback_topN :
    (∀ (qe : List ℚ) (chunks : List RAGChunk) (k : Nat)
        (cos : List ℚ → List ℚ → ℚ),
      chunks ≠ [] →
      (∀ c ∈ chunks, cos qe c.embedding < SIMILARITY_THRESHOLD) →
      processRAGQuery (.ok qe) (.ok chunks) k cos =
          (sortBySimilarityDesc (chunks.map fun c => ⟨c, cos qe c.embedding⟩)).take
            FALLBACK_CHUNKS
        ∧ (processRAGQuery (.ok qe) (.ok chunks) k cos).length =
            min FALLBACK_CHUNKS chunks.length
        ∧ ∀ x ∈ processRAGQuery (.ok qe) (.ok chunks) k cos,
          ∀ y ∈ (sortBySimilarityDesc
              (chunks.map fun c => ⟨c, cos qe c.embedding⟩)).drop FALLBACK_CHUNKS,
            y.similarity ≤ x.similarity)
    ∧ ∀ (qe : List ℚ) (chunks : List RAGChunk) (k : Nat)
        (cos : List ℚ → List ℚ → ℚ),
      (∃ c ∈ chunks, SIMILARITY_THRESHOLD ≤ cos qe c.embedding) →
      ∀ x ∈ processRAGQuery (.ok qe) (.ok chunks) k cos,
        SIMILARITY_THRESHOLD ≤ x.similarity := by
  constructor
  · intro qe chunks k cos hne hlow
    have hfil : (chunks.map fun c =>
        (⟨c, cos qe c.embedding⟩ : ScoredChunk)).filter
          (fun c => decide (SIMILARITY_THRESHOLD ≤ c.similarity)) = [] := by
      rw [List.filter_eq_nil_iff]
      intro a ha
      obtain ⟨c, hc, rfl⟩ := List.mem_map.mp ha
      simpa using not_le_of_lt (hlow c hc)
    have hpath : processRAGQuery (.ok qe) (.ok chunks) k cos =
        (sortBySimilarityDesc
          (chunks.map fun c => ⟨c, cos qe c.embedding⟩)).take FALLBACK_CHUNKS := by
      simp only [processRAGQuery, hfil, List.isEmpty_nil, if_true]
    have hlen : (sortBySimilarityDesc
        (chunks.map fun c => (⟨c, cos qe c.embedding⟩ : ScoredChunk))).length =
        chunks.length := by
      rw [sortBySimilarityDesc]
      rw [(List.perm_insertionSort simDescRel _).length_eq, List.length_map]
    refine ⟨hpath, ?_, ?_⟩
    · rw [hpath, List.length_take, hlen]
    · intro x hx y hy
      rw [hpath] at hx
      have hsorted : List.Pairwise simDescRel
          ((sortBySimilarityDesc
              (chunks.map fun c => ⟨c, cos qe c.embedding⟩)).take FALLBACK_CHUNKS ++
            (sortBySimilarityDesc
              (chunks.map fun c => ⟨c, cos qe c.embedding⟩)).drop FALLBACK_CHUNKS) := by
        rw [List.take_append_drop]
        exact List.sorted_insertionSort simDescRel _
      exact (List.pairwise_append.mp hsorted).2.2 x hx y hy
  · intro qe chunks k cos ⟨c, hc, hθ⟩ x hx
    have hmemf : (⟨c, cos qe c.embedding⟩ : ScoredChunk) ∈
        (chunks.map fun c => (⟨c, cos qe c.embedding⟩ : ScoredChunk)).filter
          (fun c => decide (SIMILARITY_THRESHOLD ≤ c.similarity)) :=
      List.mem_filter.mpr ⟨List.mem_map_of_mem _ hc, decide_eq_true hθ⟩
    have hne : ((chunks.map fun c => (⟨c, cos qe c.embedding⟩ : ScoredChunk)).filter
        (fun c => decide (SIMILARITY_THRESHOLD ≤ c.similarity))).isEmpty = false := by
      rw [List.isEmpty_eq_false]
      intro h0
      rw [h0] at hmemf
      exact List.not_mem_nil _ hmemf
    rw [processRAGQuery] at hx
    simp only [hne, Bool.false_eq_true, if_false] at hx
    have hx' := List.take_subset _ _ hx
    have hx'' := (List.perm_insertionSort simDescRel _).subset hx'
    exact of_decide_eq_true (List.mem_filter.mp hx'').2


/-- C4 counterexample: over the non-empty one-chunk corpus whose best (and
only) match scores 1/2 against the 0.7 threshold, processRAGQuery returns
one result, not exactly FALLBACK_CHUNKS = 3 as the claim states. -/
theorem processRAGQuery_fallback_single_result :
    (processRAGQuery (.ok [1]) (.ok [lowChunk]) DEFAULT_MAX_CHUNKS
        (fun _ _ => 1/2)).length = 1 ∧
    (1 : ℚ)/2 < SIMILARITY_THRESHOLD ∧
    ([lowChunk] : List RAGChunk) ≠ [] ∧ FALLBACK_CHUNKS = 3 := by
  refine ⟨?_, half_lt_threshold, by decide, rfl⟩
  have h12 : ¬ (SIMILARITY_THRESHOLD ≤ (1 : ℚ)/2) := not_le_of_lt half_lt_threshold
  simp [processRAGQuery, sortBySimilarityDesc, List.insertionSort,
    List.orderedInsert, List.filter_cons, h12]
  rw [if_pos (show (2⁻¹ : ℚ) < SIMILARITY_THRESHOLD from by
    norm_num [SIMILARITY_THRESHOLD])]
  rfl

/-- C4 witness: with a four-chunk corpus all scoring 1/2, the fallback
returns min(3, 4) = 3 top results; with a one-chunk corpus scoring 1, every
returned chunk is at or above the threshold. -/
theorem processRAGQuery_fallback_topN_witness :
    (processRAGQuery (.ok [1]) (.ok chunks4low) DEFAULT_MAX_CHUNKS
          (fun _ _ => 1/2) =
        (sortBySimilarityDesc (chunks4low.map fun c => ⟨c, 1/2⟩)).take
          FALLBACK_CHUNKS
      ∧ (processRAGQuery (.ok [1]) (.ok chunks4low) DEFAULT_MAX_CHUNKS
          (fun _ _ => 1/2)).length = min FALLBACK_CHUNKS chunks4low.length
      ∧ ∀ x ∈ processRAGQuery (.ok [1]) (.ok chunks4low) DEFAULT_MAX_CHUNKS
          (fun _ _ => 1/2),
        ∀ y ∈ (sortBySimilarityDesc (chunks4low.map fun c => ⟨c, 1/2⟩)).drop
            FALLBACK_CHUNKS,
          y.similarity ≤ x.similarity)
    ∧ ∀ x ∈ processRAGQuery (.ok [1]) (.ok [highChunk]) DEFAULT_MAX_CHUNKS
        (fun _ _ => 1),
      SIMILARITY_THRESHOLD ≤ x.similarity :=
  ⟨processRAGQuery_fallback_topN.1 [1] chunks4low DEFAULT_MAX_CHUNKS
      (fun _ _ => 1/2) (by decide) (fun c _ => half_lt_threshold),
   processRAGQuery_fallback_topN.2 [1] [highChunk] DEFAULT_MAX_CHUNKS
      (fun _ _ => 1)
      ⟨highChunk, List.mem_cons_self highChunk [], threshold_le_one⟩⟩


/-- Helper: for a positive batch size, slicing into batches and flattening
restores the original list. -/
theorem batchArrayGo_flatten (bs : Nat) (hbs : 0 < bs) :
    ∀ (fuel : Nat) (l : List α), l.length ≤ fuel →
    (batchArrayGo bs fuel l).flatten = l := by
  intro fuel
  induction fuel with
  | zero =>
    intro l hl
    rw [List.eq_nil_of_length_eq_zero (Nat.le_zero.mp hl)]
    rfl
  | succ fuel ih =>
    intro l hl
    cases l with
    | nil => rfl
    | cons a as =>
      rw [batchArrayGo, List.flatten_cons]
      rw [ih ((a :: as).drop bs) ?_]
      · exact List.take_append_drop bs (a :: as)
      · rw [List.length_drop]
        simp only [List.length_cons] at hl ⊢
        omega

theorem batchArray_flatten (l : List α) (bs : Nat) (hbs : 0 < bs) :
    (batchArray l bs).flatten = l :=
  batchArrayGo_flatten bs hbs l.length l le_rfl

/-- Helper: filling the pool starts new batches but preserves the
invariant. -/
theorem fillPool_inv (batches : List (List DocumentChunk))
    (embed : List Char → List Int) (limit : Nat) :
    ∀ (fuel : Nat) (s : SimState), SimInv batches embed s →
    SimInv batches embed (fillPool batches.length limit fuel s) := by
  intro fuel
  induction fuel with
  | zero => intro s hs; exact hs
  | succ fuel ih =>
    intro s hs
    rw [fillPool]
    by_cases hc : s.pool.length < limit ∧ s.idx < batches.length
    · rw [if_pos hc]
      exact ih _ ⟨hc.2, hs.2.1, hs.2.2⟩
    · rw [if_neg hc]
      exact hs

/-- Helper: resolving a list of in-flight batches preserves the
invariant. -/
theorem applyCompletions_inv (batches : List (List DocumentChunk))
    (embed : List Char → List Int) :
    ∀ (comps : List Nat) (s s' : SimState),
    applyCompletions batches embed comps s = some s' →
    SimInv batches embed s → SimInv batches embed s' := by
  intro comps
  induction comps with
  | nil =>
    intro s s' h hs
    cases h
    exact hs
  | cons b rest ih =>
    intro s s' h hs
    rw [applyCompletions] at h
    by_cases hc : b < s.idx ∧ b ∉ s.completed
    · rw [if_pos hc] at h
      refine ih _ _ h ⟨hs.1, ?_, ?_⟩
      · intro b' hb'
        rcases List.mem_append.mp hb' with hb' | hb'
        · exact hs.2.1 b' hb'
        · rw [List.mem_singleton.mp hb']
          exact lt_of_lt_of_le hc.1 hs.1
      · rw [hs.2.2, List.map_append, List.flatten_append]
        simp
    · rw [if_neg hc] at h
      cases h

/-- Helper: a complete run of the pool preserves the invariant. -/
theorem runBatchesSim_inv (batches : List (List DocumentChunk))
    (embed : List Char → List Int) :
    ∀ (sched : List (List Nat)) (s s' : SimState),
    runBatchesSim batches embed sched s = some s' →
    SimInv batches embed s → SimInv batches embed s' := by
  intro sched
  induction sched with
  | nil =>
    intro s s' h
    rw [runBatchesSim] at h
    cases h
  | cons comps rest ih =>
    intro s s' h hs
    rw [runBatchesSim] at h
    by_cases hidx : s.idx < batches.length
    · rw [if_pos hidx] at h
      cases happly : applyCompletions batches embed comps
          (fillPool batches.length CONCURRENCY_LIMIT batches.length s) with
      | none => simp only [happly] at h; cases h
      | some s2 =>
        simp only [happly] at h
        by_cases hrace : raceResolved s2 = true
        · rw [if_pos hrace] at h
          have hs2 : SimInv batches embed s2 :=
            applyCompletions_inv batches embed comps _ _ happly
              (fillPool_inv batches embed CONCURRENCY_LIMIT _ _ hs)
          exact ih _ _ h ⟨hs2.1, hs2.2.1, hs2.2.2⟩
        · rw [if_neg hrace] at h
          cases h
    · rw [if_neg hidx] at h
      by_cases hrest : rest = []
      · rw [if_pos hrest] at h
        cases happly : applyCompletions batches embed comps s with
        | none => simp only [happly] at h; cases h
        | some s2 =>
          simp only [happly] at h
          by_cases hall : allResolved s2 = true
          · rw [if_pos hall] at h
            cases h
            exact applyCompletions_inv batches embed comps _ _ happly hs
          · rw [if_neg hall] at h
            cases h
      · rw [if_neg hrest] at h
        cases h

/-- C1 (amended): for every completion schedule under which
generateEmbeddings returns, each returned entry pairs a chunk of the input
with the embedding of that chunk's text truncated to MAX_EMBEDDING_CHARS,
and the results array is exactly the concatenation of the completed
batches' entry lists in the order the batches completed: results are
appended in completion order, not written into original positional slots,
so the i-th entry corresponds to the i-th chunk only when batches happen to
complete in submission order. -/
theorem generateEmbeddings_append_in_completion_order
    (chunks : List DocumentChunk) (provider : Provider)
    (embed : List Char → List Int) (sched : List (List Nat)) (s : SimState)
    (h : generateEmbeddings chunks provider embed sched = some s) :
    s.results = (s.completed.map fun b =>
      batchEntries embed
        ((batchArray chunks (batchSizeFor provider)).getD b [])).flatten
    ∧ ∀ e ∈ s.results, ∃ c ∈ chunks,
        e = (c, embed (c.chunk_text.take MAX_EMBEDDING_CHARS)) := by
  have hinv0 : SimInv (batchArray chunks (batchSizeFor provider)) embed
      ⟨0, [], [], [], 0⟩ := ⟨Nat.zero_le _, by simp, rfl⟩
  have hinv := runBatchesSim_inv _ embed sched _ s h hinv0
  refine ⟨hinv.2.2, ?_⟩
  intro e he
  rw [hinv.2.2, List.mem_flatten] at he
  obtain ⟨l, hl, hel⟩ := he
  rw [List.mem_map] at hl
  obtain ⟨b, hb, rfl⟩ := hl
  have hblt := hinv.2.1 b hb
  have hbatch : (batchArray chunks (batchSizeFor provider)).getD b [] ∈
      batchArray chunks (batchSizeFor provider) := by
    rw [List.getD_eq_getElem _ _ hblt]
    exact List.getElem_mem hblt
  rw [batchEntries, List.mem_map] at hel
  obtain ⟨c, hc, rfl⟩ := hel
  refine ⟨c, ?_, rfl⟩
  have hcf : c ∈ (batchArray chunks (batchSizeFor provider)).flatten :=
    List.mem_flatten.mpr ⟨_, hbatch, hc⟩
  rwa [batchArray_flatten chunks (batchSizeFor provider)
    (by cases provider <;> decide)] at hcf

/-- C1 witness: the two batches of chunks5 complete out of submission
order (batch 1 during the race, batch 0 during the final Promise.all), and
the conclusions hold at the resulting concrete final state. -/
theorem generateEmbeddings_append_in_completion_order_witness :
    simFinal5.results = (simFinal5.completed.map fun b =>
      batchEntries embedLen
        ((batchArray chunks5 (batchSizeFor .ollama)).getD b [])).flatten
    ∧ ∀ e ∈ simFinal5.results, ∃ c ∈ chunks5,
        e = (c, embedLen (c.chunk_text.take MAX_EMBEDDING_CHARS)) :=
  generateEmbeddings_append_in_completion_order chunks5 .ollama embedLen
    [[1], [0]] simFinal5 (by decide)

/-- C1 counterexample: under the schedule where batch 1 completes before
batch 0, generateEmbeddings returns all five entries but in the order
batch 1 then batch 0, so the i-th result does not pair the i-th input
chunk: the returned chunk sequence differs from the input sequence. -/
theorem generateEmbeddings_not_order_preserving :
    (generateEmbeddings chunks5 .ollama embedLen [[1], [0]]).map
        (fun s => s.results.map Prod.fst) ≠ some chunks5
    ∧ (generateEmbeddings chunks5 .ollama embedLen [[1], [0]]).map
        (fun s => s.results.length) = some chunks5.length := by
  refine ⟨by decide, by decide⟩

/-- C2: the pool is buggy: after Promise.race, pool.shift() removes the
first promise whether or not it resolved.  On seventeen chunks under the
ollama batch size (five batches) with batch 0 slow, four batches are
simultaneously in flight even though CONCURRENCY_LIMIT is 3, and the run
returns after completing only batches 1-4, with batch 0 still outstanding
and its four entries missing from the results (13 of 17 entries). -/
theorem runBatches_concurrency_and_completion_violated :
    (generateEmbeddings chunks17 .ollama embedLen [[1], [], [2], [3, 4]]).map
        SimState.maxInFlight = some 4
    ∧ CONCURRENCY_LIMIT < 4
    ∧ (generateEmbeddings chunks17 .ollama embedLen [[1], [], [2], [3, 4]]).map
        (fun s => decide (0 ∈ s.completed)) = some false
    ∧ (generateEmbeddings chunks17 .ollama embedLen [[1], [], [2], [3, 4]]).map
        (fun s => s.results.length) = some 13
    ∧ chunks17.length = 17 := by
  refine ⟨by decide, by decide, by decide, by decide, by decide⟩
